import Mathlib

/-!
Shallow embedding of the lane boundary tracking core of
`project_2_advanced_lane_finder-checkpoint.ipynb` (functions `detectLane`,
`fit_poly`, `windowHistograms`, `searchAroundPoly`, `measure_curvature_real`,
and the state-update step of `process_image`), together with theorems settling
the frozen claims about the spec.

Modelling conventions:
* numpy float64 arithmetic is modelled by exact arithmetic (`ℚ` where the
  computation stays rational, `ℝ` for the fractional power in the curvature
  formula); the claims under study concern symbolic structure, error behaviour
  and sign conventions, not rounding.
* A Python exception that propagates out of a call (a crash) is modelled by
  `Except.error` carrying the exception kind (`PyErr`).
* numpy arrays of pixel coordinates become lists in numpy's row-major
  `nonzero` order.
* The mutable `image` buffer passed to `detectLane`/`windowHistograms` is
  threaded explicitly: those functions return the buffer as it stands after
  the call, so that absence of writes to it is a provable statement.
* `cv2.fillPoly` rasterisation on the freshly allocated `out_img` is kept
  symbolic: the output image is represented by the data that determines it
  (the source frame and the three polygon vertex lists); no claim depends on
  rasterised pixel values.
-/

namespace LaneFinder

/-- Python exception kinds that the modelled code can raise.
`nonFiniteToIntError` stands for the exception raised when converting a
non-finite float (inf or nan) to an int (`OverflowError` resp. `ValueError`,
depending on how the non-finite value arose). -/
inductive PyErr where
  | typeError
  | valueError
  | nameError
  | indexError
  | nonFiniteToIntError
deriving DecidableEq, Repr

/-- A second-order polynomial coefficient triple (a, b, c) for x = a·y² + b·y + c,
as produced by `np.polyfit(..., 2)`. -/
structure Fit where
  a : ℚ
  b : ℚ
  c : ℚ
deriving DecidableEq, Repr

/-- The sentinel `[0,0,0]` that `process_image`'s globals `left_fit`/`right_fit`
are initialised to ("no fit yet"). -/
def fitZero : Fit := ⟨0, 0, 0⟩

/-- Evaluate a fit at y, as in `fit[0]*y**2 + fit[1]*y + fit[2]`. -/
def evalFit (f : Fit) (y : ℚ) : ℚ := f.a * y ^ 2 + f.b * y + f.c

/-- A binary top-down frame: a list of rows, each row a list of 0/1 pixel
values, indexed `image[y][x]`. -/
abbrev Frame := List (List ℕ)

/-- An all-zero frame of height h and width w. -/
def zeroFrame (h w : ℕ) : Frame := List.replicate h (List.replicate w 0)

/-- `image.shape[1]`: the row length of the frame (width). -/
def shape1 (image : Frame) : ℕ := (image.headD []).length

/-- Nonzero entries of one row, paired as (y, x), in ascending x order. -/
def nonzeroRow (y x : ℕ) : List ℕ → List (ℕ × ℕ)
  | [] => []
  | v :: vs => (if v ≠ 0 then [(y, x)] else []) ++ nonzeroRow y (x + 1) vs

/-- Nonzero entries of the rows starting at row index y. -/
def nonzeroRows (y : ℕ) : Frame → List (ℕ × ℕ)
  | [] => []
  | r :: rs => nonzeroRow y 0 r ++ nonzeroRows (y + 1) rs

/-- `image.nonzero()`: the (y, x) coordinates of all nonzero pixels in numpy's
row-major scan order (`nonzeroy` is the first component, `nonzerox` the second). -/
def nonzeroPixels (image : Frame) : List (ℕ × ℕ) := nonzeroRows 0 image

/-- `np.polyfit(ys, xs, 2)` on nonempty data: the least-squares solution of the
normal equations for x ≈ a·y² + b·y + c, by Cramer's rule.  For rank-deficient
data (fewer than 3 distinct y-values) numpy emits a RankWarning and still
returns finite coefficients; the exact values it returns there are examined by
no claim below, and the `ℚ` zero-division convention (giving 0) stands in for
them. -/
def lstsq2 (ys xs : List ℚ) : Fit :=
  let pts := ys.zip xs
  let s0 : ℚ := (ys.length : ℚ)
  let s1 := ys.sum
  let s2 := (ys.map (fun t => t ^ 2)).sum
  let s3 := (ys.map (fun t => t ^ 3)).sum
  let s4 := (ys.map (fun t => t ^ 4)).sum
  let v0 := xs.sum
  let v1 := (pts.map (fun p => p.1 * p.2)).sum
  let v2 := (pts.map (fun p => p.1 ^ 2 * p.2)).sum
  let det := s4 * (s2 * s0 - s1 * s1) - s3 * (s3 * s0 - s2 * s1) + s2 * (s3 * s1 - s2 * s2)
  let da := v2 * (s2 * s0 - s1 * s1) - s3 * (v1 * s0 - v0 * s1) + s2 * (v1 * s1 - v0 * s2)
  let db := s4 * (v1 * s0 - v0 * s1) - v2 * (s3 * s0 - s2 * s1) + s2 * (s3 * v0 - v1 * s2)
  let dc := s4 * (s2 * v0 - s1 * v1) - s3 * (s3 * v0 - s2 * v1) + v2 * (s3 * s1 - s2 * s2)
  ⟨da / det, db / det, dc / det⟩

/-- `np.polyfit(ys, xs, 2)`: raises `TypeError` ("expected non-empty vector
for x") on empty input, otherwise returns the least-squares coefficients. -/
def polyfit (ys xs : List ℚ) : Except PyErr Fit :=
  if ys.isEmpty then .error .typeError else .ok (lstsq2 ys xs)

/-- `ym_per_pix = 30/720`, meters per pixel in y. -/
def ym_per_pix : ℚ := 30 / 720

/-- `xm_per_pix = 3.7/700`, meters per pixel in x. -/
def xm_per_pix : ℚ := 37 / 7000

/-- `np.linspace(0, h-1, h)`: for every h this is exactly [0, 1, ..., h-1]
(empty for h = 0). -/
def plotyOf (h : ℕ) : List ℚ := (List.range h).map (fun i => (i : ℚ))

/-- The tuple returned by `fit_poly`: the plottable x-sequences, the two
metric-space (real-world) fits, and the plotting y-sequence.  Note that the
pixel-space coefficient triples `left_fit`/`right_fit` computed inside
`fit_poly` are local to it and are not part of the return value. -/
structure FitPolyResult where
  left_fitx : List ℚ
  right_fitx : List ℚ
  left_fit_rw : Fit
  right_fit_rw : Fit
  ploty : List ℚ
deriving DecidableEq, Repr

/-- `fit_poly(img_shape, leftx, lefty, rightx, righty)` (cell 13).  The
`np.polyfit` calls sit before / outside the `try` block, so an exception they
raise propagates out of `fit_poly` uncaught; the `except TypeError` branch
only guards the polynomial evaluation, which cannot fail once the fits are
arrays, so its dummy-quadratic fallback is dead code and does not appear
here. -/
def fit_poly (h : ℕ) (leftx lefty rightx righty : List ℕ) : Except PyErr FitPolyResult := do
  let left_fit ← polyfit (lefty.map (fun n => (n : ℚ))) (leftx.map (fun n => (n : ℚ)))
  let right_fit ← polyfit (righty.map (fun n => (n : ℚ))) (rightx.map (fun n => (n : ℚ)))
  let ploty := plotyOf h
  let left_fitx := ploty.map (evalFit left_fit)
  let right_fitx := ploty.map (evalFit right_fit)
  let left_fit_rw ← polyfit (lefty.map (fun n => (n : ℚ) * ym_per_pix))
    (leftx.map (fun n => (n : ℚ) * xm_per_pix))
  let right_fit_rw ← polyfit (righty.map (fun n => (n : ℚ) * ym_per_pix))
    (rightx.map (fun n => (n : ℚ) * xm_per_pix))
  return ⟨left_fitx, right_fitx, left_fit_rw, right_fit_rw, ploty⟩

/-- A numpy float64 value that is either finite (modelled exactly as a real)
or non-finite (inf/nan). -/
inductive NpF where
  | fin (x : ℝ)
  | nonfin

/-- Addition of float values: any operand being non-finite makes the result
non-finite (inf + finite = inf, nan propagates). -/
def npAdd : NpF → NpF → NpF
  | .fin x, .fin y => .fin (x + y)
  | _, _ => .nonfin

/-- Floor division by 2 of a float value: on a finite value it floors the
half; a non-finite operand stays non-finite (inf//2 is inf or nan depending
on the numpy version, both non-finite). -/
noncomputable def npHalfFloor : NpF → NpF
  | .fin x => .fin ((⌊x / 2⌋ : ℤ) : ℝ)
  | .nonfin => .nonfin

/-- `np.int(...)` applied to a float: truncation on finite values, exception
on non-finite ones.  The single call site feeds it the result of a floor
division, which is integral, so flooring is exact there. -/
noncomputable def npInt : NpF → Except PyErr ℤ
  | .fin x => .ok ⌊x⌋
  | .nonfin => .error .nonFiniteToIntError

/-- One side of the curvature computation:
`((1 + (2*fit[0]*y_eval + fit[1])**2)**1.5) / np.absolute(2*fit[0])`.
The numerator is ≥ 1 > 0, so when the leading coefficient is 0 the numpy
division of a positive finite float by 0.0 yields +inf (with a
RuntimeWarning, not an exception); otherwise the quotient is finite. -/
noncomputable def npCurverad (f : Fit) (y : ℚ) : NpF :=
  if f.a = 0 then .nonfin
  else .fin (((1 + (2 * (f.a : ℝ) * (y : ℝ) + (f.b : ℝ)) ^ 2) ^ (1.5 : ℝ)) / |2 * (f.a : ℝ)|)

/-- `np.max` of a float array: raises `ValueError` on an empty array. -/
def npMax (l : List ℚ) : Except PyErr ℚ :=
  match l.max? with
  | none => .error .valueError
  | some q => .ok q

/-- `measure_curvature_real(ploty, left_fit, right_fit)` (cell 17):
`y_eval = np.max(ploty)`, the two per-side radii, and
`np.int((left_curverad + right_curverad)//2)`. -/
noncomputable def measure_curvature_real (ploty : List ℚ) (left_fit right_fit : Fit) :
    Except PyErr ℤ := do
  let y_eval ← npMax ploty
  let left_curverad := npCurverad left_fit y_eval
  let right_curverad := npCurverad right_fit y_eval
  npInt (npHalfFloor (npAdd left_curverad right_curverad))

/-- The offset expression of `detectLane` (cell 12, line
`offset = (640 - (left_fitx[-1] + right_fitx[-1])/2)*xm_per_pix`): the
reference x is the literal constant 640, not a function of the frame width. -/
def detect_offset (leftBottom rightBottom : ℚ) : ℚ :=
  (640 - (leftBottom + rightBottom) / 2) * xm_per_pix

/-- The global name `binary_warped` read by `searchAroundPoly`: no cell of the
notebook ever binds it, so the notebook namespace resolves it to nothing. -/
def binary_warped : Option Frame := none

/-- `searchAroundPoly(image, left_fit, right_fit)` (cell 15).  Its body reads
the global `binary_warped` — not the `image` parameter — so when that name is
unbound (as in this notebook) the first statement raises `NameError`.  With a
bound `binary_warped` it selects the nonzero pixels of that array whose x is
strictly within ±60 of the prior fit evaluated at the pixel's y. -/
def searchAroundPoly (bw : Option Frame) (image : Frame) (left_fit right_fit : Fit) :
    Except PyErr (List ℕ × List ℕ × List ℕ × List ℕ) :=
  match bw with
  | none => .error .nameError
  | some bwFrame =>
    let margin : ℚ := 60
    let nz := nonzeroPixels bwFrame
    let leftSel := nz.filter (fun p =>
      decide ((p.2 : ℚ) < evalFit left_fit (p.1 : ℚ) + margin ∧
        evalFit left_fit (p.1 : ℚ) - margin < (p.2 : ℚ)))
    let rightSel := nz.filter (fun p =>
      decide ((p.2 : ℚ) < evalFit right_fit (p.1 : ℚ) + margin ∧
        evalFit right_fit (p.1 : ℚ) - margin < (p.2 : ℚ)))
    .ok (leftSel.map (fun p => p.2), leftSel.map (fun p => p.1),
      rightSel.map (fun p => p.2), rightSel.map (fun p => p.1))

/-- `np.sum(image[image.shape[0]//2:, :], axis=0)`: the column-wise sum of the
bottom half of the frame, a 1D histogram of length `image.shape[1]`. -/
def histogram (image : Frame) : List ℕ :=
  (List.range (shape1 image)).map (fun j =>
    ((image.drop (image.length / 2)).map (fun row => row.getD j 0)).sum)

/-- `np.argmax`: the first (lowest) index of the maximum value; `none` models
the `ValueError` numpy raises on an empty array. -/
def argmaxFirst (l : List ℕ) : Option ℕ := l.max?.map (fun m => l.indexOf m)

/-- `leftx_base = np.argmax(histogram[:midpoint])` with
`midpoint = histogram.shape[0]//2`. -/
def leftxBase (image : Frame) : Option ℕ :=
  let hist := histogram image
  argmaxFirst (hist.take (hist.length / 2))

/-- `rightx_base = np.argmax(histogram[midpoint:]) + midpoint`. -/
def rightxBase (image : Frame) : Option ℕ :=
  let hist := histogram image
  (argmaxFirst (hist.drop (hist.length / 2))).map (fun i => i + hist.length / 2)

/-- The per-window loop state of `windowHistograms`: the two current x-centers
and the per-window lists of collected pixels (the code keeps index arrays into
`nonzero` and concatenates them at the end; collecting the pixel pairs
directly is equivalent because the boolean-mask indices are in `nonzero`
order). -/
structure WinState where
  leftc : ℤ
  rightc : ℤ
  leftInds : List (List (ℕ × ℕ))
  rightInds : List (List (ℕ × ℕ))

/-- Membership of a nonzero pixel (y, x) in a search window:
`(nonzeroy < win_y_high) & (nonzeroy >= win_y_low) & (nonzerox < win_x_high)
& (nonzerox >= win_x_low)`.  (In the right-lane expression of the source one
`&` is a `*`; multiplying the two boolean masks produces the same 0/1 mask,
so both sides reduce to this conjunction.) -/
def inWindow (ylow yhigh xlow xhigh : ℤ) (p : ℕ × ℕ) : Bool :=
  decide ((p.1 : ℤ) < yhigh ∧ ylow ≤ (p.1 : ℤ) ∧ (p.2 : ℤ) < xhigh ∧ xlow ≤ (p.2 : ℤ))

/-- The recentering step `if (len(good_inds) > minpix): current =
np.int(np.mean(nonzerox[good_inds]))` with `minpix = 30` (note: strictly
greater).  The mean of the nonnegative ints, truncated by `np.int`, is their
sum floor-divided by their count. -/
def recenterWindow (c : ℤ) (xs : List ℕ) : ℤ :=
  if 30 < xs.length then ((xs.sum / xs.length : ℕ) : ℤ) else c

/-- One iteration of the `for window in range(nwindows)` loop of
`windowHistograms`, with `margin = 80`. -/
def windowStep (nz : List (ℕ × ℕ)) (h window_height : ℕ) (st : WinState) (window : ℕ) :
    WinState :=
  let win_y_low : ℤ := (h : ℤ) - (window + 1) * window_height
  let win_y_high : ℤ := (h : ℤ) - window * window_height
  let goodLeft := nz.filter (inWindow win_y_low win_y_high (st.leftc - 80) (st.leftc + 80))
  let goodRight := nz.filter (inWindow win_y_low win_y_high (st.rightc - 80) (st.rightc + 80))
  { leftc := recenterWindow st.leftc (goodLeft.map (fun p => p.2))
    rightc := recenterWindow st.rightc (goodRight.map (fun p => p.2))
    leftInds := st.leftInds ++ [goodLeft]
    rightInds := st.rightInds ++ [goodRight] }

/-- The computation of `windowHistograms(image)` (cell 14): histogram bases,
`nwindows = 9` sliding windows with `window_height = image.shape[0]//9`,
concatenation of the per-window pixel sets, and extraction of the
(leftx, lefty, rightx, righty) coordinate arrays. -/
def windowHistogramsCore (image : Frame) :
    Except PyErr (List ℕ × List ℕ × List ℕ × List ℕ) :=
  match leftxBase image, rightxBase image with
  | some lb, some rb =>
    let window_height := image.length / 9
    let nz := nonzeroPixels image
    let st := (List.range 9).foldl (windowStep nz image.length window_height)
      ⟨(lb : ℤ), (rb : ℤ), [], []⟩
    let leftPix := st.leftInds.flatten
    let rightPix := st.rightInds.flatten
    .ok (leftPix.map (fun p => p.2), leftPix.map (fun p => p.1),
      rightPix.map (fun p => p.2), rightPix.map (fun p => p.1))
  | _, _ => .error .valueError

/-- `windowHistograms` with the `image` buffer threaded through: the function
only reads the buffer, so the buffer after the call is the input buffer. -/
def windowHistograms (image : Frame) :
    Except PyErr (List ℕ × List ℕ × List ℕ × List ℕ) × Frame :=
  (windowHistogramsCore image, image)

/-- The visualization image built by `detectLane`, kept symbolic: the freshly
allocated base `np.dstack((image, image, image))*255` is determined by
`image`, and the three `cv2.fillPoly` polygons are determined by their vertex
lists (built from `left_fitx`/`right_fitx` ± `margin = 30` and `ploty`). -/
structure OutImg where
  base : Frame
  leftPts : List (ℚ × ℚ)
  rightPts : List (ℚ × ℚ)
  centerPts : List (ℚ × ℚ)
deriving DecidableEq, Repr

/-- The polygon construction of `detectLane`'s visualization block. -/
def mkOutImg (image : Frame) (left_fitx right_fitx ploty : List ℚ) : OutImg :=
  let margin : ℚ := 30
  { base := image
    leftPts := (left_fitx.map (fun x => x - margin)).zip ploty ++
      ((left_fitx.map (fun x => x + margin)).zip ploty).reverse
    rightPts := (right_fitx.map (fun x => x - margin)).zip ploty ++
      ((right_fitx.map (fun x => x + margin)).zip ploty).reverse
    centerPts := (left_fitx.map (fun x => x + margin)).zip ploty ++
      ((right_fitx.map (fun x => x - margin)).zip ploty).reverse }

/-- The tuple returned by `detectLane`: `out_img, left_fit, right_fit,
curvature, offset`.  The `left_fit`/`right_fit` components are the function's
input parameters — `fit_poly` does not return the pixel-space coefficients it
computes, so `detectLane` has nothing newer to return. -/
structure DetectResult where
  out_img : OutImg
  left_fit : Fit
  right_fit : Fit
  curvature : ℤ
  offset : ℚ

/-- The part of `detectLane` after the pixel search: polynomial fitting,
curvature, offset, visualization, and assembly of the returned tuple. -/
noncomputable def detectLaneAux (image : Frame) (left_fit right_fit : Fit)
    (searched : Except PyErr (List ℕ × List ℕ × List ℕ × List ℕ)) :
    Except PyErr DetectResult :=
  match searched with
  | .error e => .error e
  | .ok (leftx, lefty, rightx, righty) =>
    match fit_poly image.length leftx lefty rightx righty with
    | .error e => .error e
    | .ok fp =>
      match measure_curvature_real fp.ploty fp.left_fit_rw fp.right_fit_rw with
      | .error e => .error e
      | .ok curvature =>
        match fp.left_fitx.getLast?, fp.right_fitx.getLast? with
        | some lLast, some rLast =>
          .ok ⟨mkOutImg image fp.left_fitx fp.right_fitx fp.ploty,
            left_fit, right_fit, curvature, detect_offset lLast rLast⟩
        | _, _ => .error .indexError

/-- `detectLane(image, left_fit, right_fit)` (cell 12), with the `image`
buffer threaded through (second component).  Cold start (`windowHistograms`)
is taken exactly when both incoming fits equal the `[0,0,0]` sentinel;
otherwise `searchAroundPoly` is called against the notebook's (unbound)
`binary_warped` global. -/
noncomputable def detectLane (image : Frame) (left_fit right_fit : Fit) :
    Except PyErr DetectResult × Frame :=
  if left_fit = fitZero ∧ right_fit = fitZero then
    let searched := windowHistograms image
    (detectLaneAux image left_fit right_fit searched.1, searched.2)
  else
    (detectLaneAux image left_fit right_fit
      (searchAroundPoly binary_warped image left_fit right_fit), image)

/-- The tracking-state update step of `process_image` (cell 22): the core
line `curve, left_fit, right_fit, curvature, offset = detectLane(transformed,
left_fit, right_fit)` rebinds the global fit pair to whatever `detectLane`
returns.  The out-of-scope collaborators of `process_image` (camera
calibration, thresholding, perspective warp, rendering) act before/after this
step and do not touch the fit state; `transformed` is their output frame. -/
noncomputable def process_image_core (transformed : Frame) (st : Fit × Fit) :
    Except PyErr ((Fit × Fit) × ℤ × ℚ) :=
  ((detectLane transformed st.1 st.2).1).map
    (fun r => ((r.left_fit, r.right_fit), r.curvature, r.offset))

/-! ## Helper lemmas -/

/-- `List.max?` on a linear order returns exactly the first-class maximum:
a member that dominates every member. -/
theorem max?_spec {α : Type} [LinearOrder α] {l : List α} {m : α} :
    l.max? = some m ↔ m ∈ l ∧ ∀ b ∈ l, b ≤ m :=
  @List.max?_eq_some_iff α m _ _ ⟨fun ha hb => le_antisymm ha hb⟩ le_refl max_choice
    (fun _ _ _ => max_le_iff) l

/-- A nonempty list has a `max?`. -/
theorem max?_isSome {α : Type} [Max α] {l : List α} (hl : l ≠ []) : ∃ m, l.max? = some m := by
  cases l with
  | nil => exact absurd rfl hl
  | cons x xs => exact ⟨xs.foldl max x, rfl⟩

/-- `argmaxFirst` on a nonempty list returns the first index attaining the
maximum: the value at the index dominates all values, and all strictly
earlier values are strictly smaller. -/
theorem argmaxFirst_spec {l : List ℕ} (hl : l ≠ []) :
    ∃ i, argmaxFirst l = some i ∧ i < l.length ∧
      (∀ j, j < l.length → l.getD j 0 ≤ l.getD i 0) ∧
      (∀ j, j < i → l.getD j 0 < l.getD i 0) := by
  obtain ⟨m, hm⟩ := max?_isSome hl
  obtain ⟨hmem, hdom⟩ := max?_spec.mp hm
  refine ⟨l.indexOf m, ?_, ?_, ?_, ?_⟩
  · simp [argmaxFirst, hm]
  · exact List.indexOf_lt_length.mpr hmem
  all_goals
    have hidx : l.indexOf m < l.length := List.indexOf_lt_length.mpr hmem
    have hval : l.getD (l.indexOf m) 0 = m := by
      rw [List.getD_eq_getElem?_getD, List.getElem?_eq_getElem hidx]
      simp [List.getElem_indexOf]
  · intro j hj
    rw [hval, List.getD_eq_getElem?_getD, List.getElem?_eq_getElem hj]
    exact hdom _ (List.getElem_mem hj)
  · intro j hj
    have hjl : j < l.length := hj.trans hidx
    have hne : l[j] ≠ m := by
      have hfind : List.indexOf m l = List.findIdx (fun x => x == m) l := rfl
      have := @List.not_of_lt_findIdx _ (fun x => x == m) l j (hfind ▸ hj)
      simpa using this
    have hle : l[j] ≤ m := hdom _ (List.getElem_mem hjl)
    rw [hval, List.getD_eq_getElem?_getD, List.getElem?_eq_getElem hjl]
    exact lt_of_le_of_ne hle hne

/-- Appending one element to a list with a known `max?` takes the max. -/
theorem max?_concat {l : List ℚ} {m : ℚ} (a : ℚ) (hm : l.max? = some m) :
    (l ++ [a]).max? = some (max m a) := by
  cases l with
  | nil => simp at hm
  | cons x xs =>
    have hfold : xs.foldl max x = m := by simpa [List.max?] using hm
    simp [List.max?, List.foldl_append, hfold]

/-- `np.linspace(0, h-1, h)` has maximum h-1. -/
theorem max?_plotyOf (n : ℕ) : (plotyOf (n + 1)).max? = some ((n : ℚ)) := by
  induction n with
  | zero => rfl
  | succ k ih =>
    have hsplit : plotyOf (k + 2) = plotyOf (k + 1) ++ [((k + 1 : ℕ) : ℚ)] := by
      simp [plotyOf, List.range_succ]
    rw [hsplit, max?_concat _ ih]
    have : max ((k : ℚ)) ((k + 1 : ℕ) : ℚ) = ((k + 1 : ℕ) : ℚ) := by
      apply max_eq_right
      push_cast
      linarith
    rw [this]

/-- Reduction of the `Except` monad bind on a success value. -/
theorem pyBind_ok {α β : Type} (a : α) (f : α → Except PyErr β) :
    (Except.ok a >>= f) = f a := rfl

/-- Truncating the exact rational mean of naturals is natural floor division. -/
theorem natCast_div_eq_floor (a b : ℕ) : (((a / b : ℕ) : ℤ)) = ⌊((a : ℚ)) / ((b : ℚ))⌋ := by
  have h0 : (0 : ℚ) ≤ (a : ℚ) / (b : ℚ) := by positivity
  rw [← Int.natCast_floor_eq_floor h0, Nat.floor_div_nat, Nat.floor_natCast]

/-! ## Claim theorems -/

/-- C3: as written the claim is false of the code — `searchAroundPoly` never
returns any PixelSet: its body reads the global name `binary_warped`, which no
cell of the notebook binds, instead of its `image` parameter, so every call
raises `NameError` regardless of the input frame and prior fits. -/
theorem searchAroundPoly_raises_nameError (image : Frame) (left_fit right_fit : Fit) :
    searchAroundPoly binary_warped image left_fit right_fit = .error .nameError := rfl

/-- C9: `fit_poly` (and the underlying `np.polyfit` model, which also produces
the pixel-space coefficients internal to `fit_poly`) is a pure function of the
PixelSets: two calls on the same inputs return identical results, in both
pixel space and metric space. -/
theorem fit_poly_deterministic (h : ℕ) (leftx lefty rightx righty : List ℕ)
    (ys xs : List ℚ) :
    fit_poly h leftx lefty rightx righty = fit_poly h leftx lefty rightx righty ∧
      polyfit ys xs = polyfit ys xs :=
  ⟨rfl, rfl⟩

/-- Stated from the claim's words for comparison with the code: the offset
computed against the actual frame width W, reference point W/2. -/
def offset_claimed (W leftBottom rightBottom : ℚ) : ℚ :=
  (W / 2 - (leftBottom + rightBottom) / 2) * xm_per_pix

/-- C5 counterexample: on a frame of width 1000 with fitted bottom x-values
400 and 600 the lane center is 500 = W/2, so the claimed formula gives offset
0; the code's offset expression uses the constant 640 and yields 37/50 m. -/
theorem offset_width_formula_cex :
    detect_offset 400 600 = 37 / 50 ∧ offset_claimed 1000 400 600 = 0 ∧
      detect_offset 400 600 ≠ offset_claimed 1000 400 600 := by
  refine ⟨?_, ?_, ?_⟩ <;> norm_num [detect_offset, offset_claimed, xm_per_pix]

/-- C5 amended: the vehicle reference point is the hard-coded constant 640
(the horizontal center only of an assumed 1280-wide frame):
offset = (640 − mean(left bottom, right bottom)) · 3.7/700, which coincides
with the claimed W/2 formula exactly for W = 1280; the offset is 0 exactly
when the lane center is 640, and positive exactly when the lane center is
left of 640. -/
theorem offset_fixed_center_640 (lb rb : ℚ) :
    detect_offset lb rb = (640 - (lb + rb) / 2) * (37 / 7000) ∧
    detect_offset lb rb = offset_claimed 1280 lb rb ∧
    (detect_offset lb rb = 0 ↔ (lb + rb) / 2 = 640) ∧
    (0 < detect_offset lb rb ↔ (lb + rb) / 2 < 640) := by
  unfold detect_offset offset_claimed xm_per_pix
  refine ⟨rfl, by norm_num, ?_, ?_⟩
  · constructor
    · intro hzero
      rcases mul_eq_zero.mp hzero with hf | hf
      · linarith
      · norm_num at hf
    · intro hm
      rw [hm]
      norm_num
  · constructor <;> intro hp <;> nlinarith

/-- C4 counterexample: on the spec's synthetic straight fit (a=0, b=0, c=500)
over the full 720-sample y-sequence, the curvature call does not report any
clamped finite value: the zero leading coefficient makes both radii +inf, and
the final int conversion raises — the result is an error, not a saturated
radius. -/
theorem measure_curvature_straight_fit_raises :
    measure_curvature_real (plotyOf 720) ⟨0, 0, 500⟩ ⟨0, 0, 500⟩ =
      .error .nonFiniteToIntError := by
  have h720 : (720 : ℕ) = 719 + 1 := rfl
  rw [h720]
  simp [measure_curvature_real, npMax, max?_plotyOf 719, npCurverad, npAdd, npHalfFloor, npInt,
    pyBind_ok]

/-- C4 amended: for every fit whose leading coefficient is 0 (straight line)
and nonempty y-sequence, the division by |2a| = 0 produces +inf, the
non-finite value propagates through the sum and floor-halving, and the final
`np.int` conversion raises; there is no saturating cap or sentinel. -/
theorem measure_curvature_zero_leading_raises (h : ℕ) (left_fit right_fit : Fit)
    (hh : 1 ≤ h) (ha : left_fit.a = 0) :
    measure_curvature_real (plotyOf h) left_fit right_fit = .error .nonFiniteToIntError := by
  obtain ⟨n, rfl⟩ : ∃ n, h = n + 1 := ⟨h - 1, (Nat.succ_pred_eq_of_pos hh).symm⟩
  simp [measure_curvature_real, npMax, max?_plotyOf, npCurverad, ha, npAdd, npHalfFloor, npInt,
    pyBind_ok]

/-- Witness for the C4 amended theorem at a concrete input. -/
theorem measure_curvature_zero_leading_raises_witness :
    1 ≤ 2 ∧ (⟨0, 0, 500⟩ : Fit).a = 0 ∧
      measure_curvature_real (plotyOf 2) ⟨0, 0, 500⟩ ⟨1, 2, 3⟩ =
        .error .nonFiniteToIntError :=
  ⟨by norm_num, rfl,
    measure_curvature_zero_leading_raises 2 ⟨0, 0, 500⟩ ⟨1, 2, 3⟩ (by norm_num) rfl⟩

/-- C8: for nonzero leading coefficients, the reported curvature is the floor
of the average of the two per-side radii, each given by the closed-form
(1 + (2·a·y_eval + b)²)^1.5 / |2·a| at the same y_eval = h−1, the maximum of
the plotting y-sequence. -/
theorem curvature_radius_formula (left_fit right_fit : Fit) (h : ℕ) (hh : 1 ≤ h)
    (hl : left_fit.a ≠ 0) (hr : right_fit.a ≠ 0) :
    measure_curvature_real (plotyOf h) left_fit right_fit =
      .ok ⌊((1 + (2 * (left_fit.a : ℝ) * ((h : ℝ) - 1) + (left_fit.b : ℝ)) ^ 2) ^ (1.5 : ℝ) /
            |2 * (left_fit.a : ℝ)| +
          (1 + (2 * (right_fit.a : ℝ) * ((h : ℝ) - 1) + (right_fit.b : ℝ)) ^ 2) ^ (1.5 : ℝ) /
            |2 * (right_fit.a : ℝ)|) / 2⌋ := by
  obtain ⟨n, rfl⟩ : ∃ n, h = n + 1 := ⟨h - 1, (Nat.succ_pred_eq_of_pos hh).symm⟩
  simp only [measure_curvature_real, npMax, max?_plotyOf, npCurverad, hl, hr, if_false,
    ite_false, npAdd, npHalfFloor, npInt, pyBind_ok, Int.floor_intCast]
  congr 2
  push_cast
  ring_nf

/-- Witness for C8 at a concrete input. -/
theorem curvature_radius_formula_witness :
    1 ≤ 1 ∧ ((⟨1, 0, 0⟩ : Fit).a ≠ 0) ∧
      measure_curvature_real (plotyOf 1) ⟨1, 0, 0⟩ ⟨1, 0, 0⟩ =
        .ok ⌊((1 + (2 * ((1 : ℚ) : ℝ) * (((1 : ℕ) : ℝ) - 1) + ((0 : ℚ) : ℝ)) ^ 2) ^ (1.5 : ℝ) /
              |2 * ((1 : ℚ) : ℝ)| +
            (1 + (2 * ((1 : ℚ) : ℝ) * (((1 : ℕ) : ℝ) - 1) + ((0 : ℚ) : ℝ)) ^ 2) ^ (1.5 : ℝ) /
              |2 * ((1 : ℚ) : ℝ)|) / 2⌋ :=
  ⟨by norm_num, by norm_num,
    curvature_radius_formula ⟨1, 0, 0⟩ ⟨1, 0, 0⟩ 1 (by norm_num) (by norm_num) (by norm_num)⟩

/-- The 30 distinct window x-coordinates 85..99, 101..115 used as the C6
counterexample: their count is exactly minpix = 30 and their mean is
exactly 100. -/
def cexWindowXs : List ℕ :=
  (List.range 15).map (fun i => 85 + i) ++ (List.range 15).map (fun i => 101 + i)

/-- C6 counterexample: a window that collects exactly 30 pixels (≥ minpix)
with mean x = 100 does not recenter: the code's strict `>` comparison keeps
the previous center 200, while the claim requires recentering to 100. -/
theorem recenter_threshold_cex :
    cexWindowXs.length = 30 ∧ (cexWindowXs.sum / cexWindowXs.length : ℕ) = 100 ∧
      recenterWindow 200 cexWindowXs = 200 ∧ (200 : ℤ) ≠ (100 : ℤ) := by
  refine ⟨by decide, by decide, by decide, by decide⟩

/-- C6 amended: the window x-center is recentered to the integer-truncated
mean x of the collected pixels exactly when their count is strictly greater
than minpix = 30; at count ≤ 30 (including exactly 30) the previous center is
retained. -/
theorem recenter_strict_threshold (c : ℤ) (xs : List ℕ) :
    (30 < xs.length → recenterWindow c xs = ⌊((xs.sum : ℚ)) / ((xs.length : ℚ))⌋) ∧
      (xs.length ≤ 30 → recenterWindow c xs = c) := by
  constructor
  · intro hgt
    rw [recenterWindow, if_pos hgt, natCast_div_eq_floor]
  · intro hle
    rw [recenterWindow, if_neg (not_lt.mpr hle)]

/-- Witness for the C6 amended theorem at a concrete input. -/
theorem recenter_strict_threshold_witness :
    30 < (List.replicate 31 (100 : ℕ)).length ∧
      recenterWindow 5 (List.replicate 31 100) =
        ⌊(((List.replicate 31 (100 : ℕ)).sum : ℚ)) / (((List.replicate 31 (100 : ℕ)).length : ℚ))⌋ :=
  ⟨by decide, (recenter_strict_threshold 5 (List.replicate 31 100)).1 (by decide)⟩

/-- A 9×6 first frame on which the whole per-frame pipeline succeeds: the
nonzero pixels (y, x) = (0, 4), (4, 1), (8, 0) lie on the parabola
x = y²/16 − y + 4, so both pixel fits and both metric fits are exact with a
nonzero leading coefficient. -/
def wFrame : Frame :=
  [[0, 0, 0, 0, 1, 0],
   [0, 0, 0, 0, 0, 0],
   [0, 0, 0, 0, 0, 0],
   [0, 0, 0, 0, 0, 0],
   [0, 1, 0, 0, 0, 0],
   [0, 0, 0, 0, 0, 0],
   [0, 0, 0, 0, 0, 0],
   [0, 0, 0, 0, 0, 0],
   [1, 0, 0, 0, 0, 0]]

/-- A successful `detectLaneAux` always hands back the fit pair it was given
as arguments: `fit_poly` does not return the pixel-space coefficients it
computes, so the assembled result reuses the incoming (prior) fits. -/
theorem detectLaneAux_fits (image : Frame) (lf rf : Fit)
    (searched : Except PyErr (List ℕ × List ℕ × List ℕ × List ℕ)) (d : DetectResult)
    (hok : detectLaneAux image lf rf searched = .ok d) :
    d.left_fit = lf ∧ d.right_fit = rf := by
  unfold detectLaneAux at hok
  split at hok
  · simp at hok
  · split at hok
    · simp at hok
    · split at hok
      · simp at hok
      · split at hok
        · cases hok
          exact ⟨rfl, rfl⟩
        · simp at hok

/-- A successful `detectLane` call returns the prior fit pair unchanged. -/
theorem detectLane_fits (image : Frame) (lf rf : Fit) (d : DetectResult)
    (hok : (detectLane image lf rf).1 = .ok d) :
    d.left_fit = lf ∧ d.right_fit = rf := by
  unfold detectLane at hok
  split at hok <;> (dsimp only at hok; exact detectLaneAux_fits image lf rf _ d hok)

/-- C1: the claim is false of the code — the fit pair a per-frame call returns
and stores back into the globals is indistinguishable from the PRIOR pair (it
IS the prior pair whenever the call succeeds, and on the first frame that is
the `[0,0,0]` sentinel), never the coefficients fitted from this frame's
pixels, so the tracker never transitions COLD→WARM. -/
theorem process_image_keeps_prior_fit (transformed : Frame) (st : Fit × Fit) :
    (process_image_core transformed st).map (fun o => o.1) =
      (process_image_core transformed st).map (fun _ => st) := by
  unfold process_image_core
  rcases hd : (detectLane transformed st.1 st.2).1 with e | d
  · rfl
  · obtain ⟨h1, h2⟩ := detectLane_fits _ _ _ _ hd
    simp [Except.map, h1, h2]

/-- C10: no step of the per-frame core writes to the input frame: the `image`
buffer after a `detectLane` call (successful or not) is the input buffer; all
visualization output is assembled in the freshly allocated `out_img`. -/
theorem detectLane_preserves_input_frame (image : Frame) (left_fit right_fit : Fit) :
    (detectLane image left_fit right_fit).2 = image := by
  unfold detectLane
  split
  · rfl
  · rfl

/-- An all-zero row contributes no nonzero pixels. -/
theorem nonzeroRow_replicate_zero (y : ℕ) : ∀ (x w : ℕ),
    nonzeroRow y x (List.replicate w 0) = [] := by
  intro x w
  induction w generalizing x with
  | zero => rfl
  | succ n ih => simpa [List.replicate_succ, nonzeroRow] using ih (x + 1)

/-- An all-zero frame contributes no nonzero pixels from any starting row. -/
theorem nonzeroRows_replicate_zero (h w : ℕ) : ∀ (y : ℕ),
    nonzeroRows y (List.replicate h (List.replicate w 0)) = [] := by
  induction h with
  | zero => intro y; rfl
  | succ n ih =>
    intro y
    simp [List.replicate_succ, nonzeroRows, nonzeroRow_replicate_zero, ih]

/-- `image.nonzero()` of an all-zero frame is empty. -/
theorem nonzeroPixels_zeroFrame (h w : ℕ) : nonzeroPixels (zeroFrame h w) = [] :=
  nonzeroRows_replicate_zero h w 0

/-- Every entry read from an all-zero row is zero. -/
theorem getD_replicate_zero (w j : ℕ) : (List.replicate w (0 : ℕ)).getD j 0 = 0 := by
  rw [List.getD_eq_getElem?_getD, List.getElem?_replicate]
  split <;> rfl

/-- The bottom-half histogram of an all-zero frame is all zero. -/
theorem histogram_zeroFrame (h w : ℕ) (hh : 1 ≤ h) :
    histogram (zeroFrame h w) = List.replicate w 0 := by
  obtain ⟨n, rfl⟩ : ∃ n, h = n + 1 := ⟨h - 1, (Nat.succ_pred_eq_of_pos hh).symm⟩
  have hshape : shape1 (zeroFrame (n + 1) w) = w := by
    simp [shape1, zeroFrame, List.replicate_succ]
  unfold histogram
  rw [hshape]
  have hcol : ∀ j : ℕ,
      (((zeroFrame (n + 1) w).drop ((zeroFrame (n + 1) w).length / 2)).map
        (fun row => row.getD j 0)).sum = 0 := by
    intro j
    rw [zeroFrame, List.drop_replicate, List.map_replicate, getD_replicate_zero,
      List.sum_replicate]
    simp
  calc (List.range w).map (fun j =>
        (((zeroFrame (n + 1) w).drop ((zeroFrame (n + 1) w).length / 2)).map
          (fun row => row.getD j 0)).sum)
      = (List.range w).map (fun _ => 0) := by
        apply List.map_congr_left
        intro j _
        exact hcol j
    _ = List.replicate w 0 := by rw [List.map_const', List.length_range]

/-- `np.argmax` of a nonempty all-zero array is index 0. -/
theorem argmaxFirst_replicate_zero (k : ℕ) (hk : 1 ≤ k) :
    argmaxFirst (List.replicate k (0 : ℕ)) = some 0 := by
  obtain ⟨n, rfl⟩ : ∃ n, k = n + 1 := ⟨k - 1, (Nat.succ_pred_eq_of_pos hk).symm⟩
  have hmax : (List.replicate (n + 1) (0 : ℕ)).max? = some 0 := by
    apply max?_spec.mpr
    constructor
    · exact List.mem_replicate.mpr ⟨by omega, rfl⟩
    · intro b hb
      rw [(List.mem_replicate.mp hb).2]
  unfold argmaxFirst
  rw [hmax]
  have hidx : List.indexOf (0 : ℕ) (List.replicate (n + 1) 0) = 0 := by
    rw [List.replicate_succ, List.indexOf_cons]
    simp
  simp [hidx]

/-- With no nonzero pixels, every sliding window collects nothing: the fold
only appends empty per-window left pixel lists. -/
theorem foldl_windowStep_nil_left (H WH : ℕ) (ws : List ℕ) : ∀ (st : WinState),
    (ws.foldl (windowStep [] H WH) st).leftInds.flatten = st.leftInds.flatten := by
  induction ws with
  | nil => intro st; rfl
  | cons a t ih =>
    intro st
    have hstep : windowStep [] H WH st a =
        ⟨st.leftc, st.rightc, st.leftInds ++ [[]], st.rightInds ++ [[]]⟩ := rfl
    rw [List.foldl_cons, hstep,
      ih ⟨st.leftc, st.rightc, st.leftInds ++ [[]], st.rightInds ++ [[]]⟩]
    simp [List.flatten_append]

/-- With no nonzero pixels, every sliding window collects nothing: the fold
only appends empty per-window right pixel lists. -/
theorem foldl_windowStep_nil_right (H WH : ℕ) (ws : List ℕ) : ∀ (st : WinState),
    (ws.foldl (windowStep [] H WH) st).rightInds.flatten = st.rightInds.flatten := by
  induction ws with
  | nil => intro st; rfl
  | cons a t ih =>
    intro st
    have hstep : windowStep [] H WH st a =
        ⟨st.leftc, st.rightc, st.leftInds ++ [[]], st.rightInds ++ [[]]⟩ := rfl
    rw [List.foldl_cons, hstep,
      ih ⟨st.leftc, st.rightc, st.leftInds ++ [[]], st.rightInds ++ [[]]⟩]
    simp [List.flatten_append]

/-- Cold-start search on an all-zero frame succeeds with empty PixelSets. -/
theorem windowHistogramsCore_zeroFrame (h w : ℕ) (hh : 1 ≤ h) (hw : 2 ≤ w) :
    windowHistogramsCore (zeroFrame h w) = .ok ([], [], [], []) := by
  have hhist : histogram (zeroFrame h w) = List.replicate w 0 := histogram_zeroFrame h w hh
  have hlb : leftxBase (zeroFrame h w) = some 0 := by
    simp only [leftxBase, hhist, List.length_replicate, List.take_replicate,
      min_eq_left (Nat.div_le_self w 2)]
    exact argmaxFirst_replicate_zero _ (by omega)
  have hrb : rightxBase (zeroFrame h w) = some (0 + w / 2) := by
    simp only [rightxBase, hhist, List.length_replicate, List.drop_replicate,
      argmaxFirst_replicate_zero (w - w / 2) (by omega), Option.map_some']
  unfold windowHistogramsCore
  rw [hlb, hrb, nonzeroPixels_zeroFrame]
  simp only [foldl_windowStep_nil_left, foldl_windowStep_nil_right,
    List.flatten_nil, List.map_nil]

/-- C2: the claim is false of the code — on an all-zero first frame (both
PixelSets empty) the per-frame call does not fail with a handled explicit
error: `np.polyfit` raises `TypeError` on the empty coordinate arrays, and
that call sits outside `fit_poly`'s `try` block, so the exception escapes
`detectLane` uncaught — a crash. -/
theorem detectLane_zero_frame_uncaught_typeError (h w : ℕ) (hh : 1 ≤ h) (hw : 2 ≤ w) :
    (detectLane (zeroFrame h w) fitZero fitZero).1 = .error .typeError := by
  unfold detectLane
  rw [if_pos ⟨rfl, rfl⟩]
  dsimp only [windowHistograms]
  rw [windowHistogramsCore_zeroFrame h w hh hw]
  rfl

/-- Witness for C2 at the spec's concrete scenario: a 1280×720 all-zero frame
on the first call (sentinel prior fits). -/
theorem detectLane_zero_frame_uncaught_typeError_witness :
    1 ≤ 720 ∧ 2 ≤ 1280 ∧
      (detectLane (zeroFrame 720 1280) fitZero fitZero).1 = .error .typeError :=
  ⟨by norm_num, by norm_num,
    detectLane_zero_frame_uncaught_typeError 720 1280 (by norm_num) (by norm_num)⟩

/-- A list sum of row entries as an indexed sum. -/
theorem sum_map_getD (L : List (List ℕ)) (j : ℕ) :
    (L.map (fun row => row.getD j 0)).sum =
      ∑ i ∈ Finset.range L.length, (L.getD i []).getD j 0 := by
  induction L with
  | nil => simp
  | cons r t ih =>
    simp only [List.map_cons, List.sum_cons, List.length_cons]
    rw [Finset.sum_range_succ']
    simp only [List.getD_cons_succ, List.getD_cons_zero]
    rw [ih]
    omega

/-- Reading a dropped list at i reads the original at k + i. -/
theorem getD_drop {α : Type} (L : List α) (k i : ℕ) (d : α) :
    (L.drop k).getD i d = L.getD (k + i) d := by
  rw [List.getD_eq_getElem?_getD, List.getD_eq_getElem?_getD, List.getElem?_drop]

/-- Reading a taken prefix inside its bound reads the original list. -/
theorem getD_take {α : Type} {l : List α} {n j : ℕ} (hj : j < n) (d : α) :
    (l.take n).getD j d = l.getD j d := by
  rw [List.getD_eq_getElem?_getD, List.getD_eq_getElem?_getD, List.getElem?_take, if_pos hj]

/-- The histogram has one entry per column. -/
theorem histogram_length (image : Frame) : (histogram image).length = shape1 image := by
  simp [histogram]

/-- Each histogram entry is the column sum over the bottom half of the frame. -/
theorem histogram_getD (image : Frame) (j : ℕ) (hj : j < shape1 image) :
    (histogram image).getD j 0 =
      ∑ i ∈ Finset.Ico (image.length / 2) image.length, (image.getD i []).getD j 0 := by
  unfold histogram
  rw [List.getD_eq_getElem?_getD, List.getElem?_map, List.getElem?_range hj]
  simp only [Option.map_some', Option.getD_some]
  rw [sum_map_getD, List.length_drop, Finset.sum_Ico_eq_sum_range]
  exact Finset.sum_congr rfl fun i _ => by rw [getD_drop]

/-- Stated from the claim's words: the initial cold-start lane centers of a
frame of width w and height h.  The histogram has length w and holds the
column-wise sums of the bottom half of the frame; the left base is the first
index attaining the maximum over the left half [0, w/2); the right base is
the first index attaining the maximum over the right half [w/2, w). -/
def coldStartBasesSpec (image : Frame) (w h : ℕ) : Prop :=
  (histogram image).length = w ∧
  (∀ j, j < w → (histogram image).getD j 0 =
    ∑ i ∈ Finset.Ico (h / 2) h, (image.getD i []).getD j 0) ∧
  (∃ li, leftxBase image = some li ∧ li < w / 2 ∧
    (∀ j, j < w / 2 → (histogram image).getD j 0 ≤ (histogram image).getD li 0) ∧
    (∀ j, j < li → (histogram image).getD j 0 < (histogram image).getD li 0)) ∧
  (∃ ri, rightxBase image = some ri ∧ w / 2 ≤ ri ∧ ri < w ∧
    (∀ j, w / 2 ≤ j → j < w → (histogram image).getD j 0 ≤ (histogram image).getD ri 0) ∧
    (∀ j, w / 2 ≤ j → j < ri → (histogram image).getD j 0 < (histogram image).getD ri 0))

/-- C7: for every well-formed frame (width ≥ 2 so that both histogram halves
are nonempty), cold-start search computes its initial lane centers as the
first argmax of the left half of the bottom-half column histogram and the
first argmax of the right half offset by the midpoint, ties broken towards
the lowest index. -/
theorem cold_start_histogram_argmax (image : Frame) (w h : ℕ)
    (hlen : image.length = h) (hrows : ∀ r ∈ image, r.length = w)
    (hh : 1 ≤ h) (hw : 2 ≤ w) :
    coldStartBasesSpec image w h := by
  have hs1 : shape1 image = w := by
    cases image with
    | nil =>
      rw [List.length_nil] at hlen
      omega
    | cons r t => exact hrows r (List.mem_cons_self r t)
  have hlenh : (histogram image).length = w := by rw [histogram_length, hs1]
  have hmid : (histogram image).length / 2 = w / 2 := by rw [hlenh]
  have hhalfwlt : w / 2 < w := Nat.div_lt_self (by omega) (by norm_num)
  refine ⟨hlenh, ?_, ?_, ?_⟩
  · intro j hj
    rw [histogram_getD image j (hs1 ▸ hj), hlen]
  · -- left half
    have htlen : ((histogram image).take ((histogram image).length / 2)).length = w / 2 := by
      rw [List.length_take, hlenh]
      exact min_eq_left (Nat.div_le_self w 2)
    have htne : (histogram image).take ((histogram image).length / 2) ≠ [] := by
      rw [← List.length_pos_iff_ne_nil, htlen]
      omega
    obtain ⟨li, hfind, hlt, hdom, hstrict⟩ := argmaxFirst_spec htne
    rw [htlen] at hlt
    have hlival : ((histogram image).take ((histogram image).length / 2)).getD li 0 =
        (histogram image).getD li 0 := getD_take (by rw [hmid]; exact hlt) 0
    refine ⟨li, hfind, hlt, ?_, ?_⟩
    · intro j hj
      have := hdom j (by rw [htlen]; exact hj)
      rwa [hlival, getD_take (by rw [hmid]; exact hj) 0] at this
    · intro j hj
      have := hstrict j hj
      rwa [hlival, getD_take (by rw [hmid]; exact hj.trans hlt) 0] at this
  · -- right half
    have hdlen : ((histogram image).drop ((histogram image).length / 2)).length = w - w / 2 := by
      rw [List.length_drop, hlenh]
    have hdne : (histogram image).drop ((histogram image).length / 2) ≠ [] := by
      rw [← List.length_pos_iff_ne_nil, hdlen]
      omega
    obtain ⟨i0, hfind, hlt, hdom, hstrict⟩ := argmaxFirst_spec hdne
    rw [hdlen] at hlt
    have hival : ((histogram image).drop ((histogram image).length / 2)).getD i0 0 =
        (histogram image).getD (i0 + w / 2) 0 := by
      rw [getD_drop, hmid, Nat.add_comm]
    refine ⟨i0 + w / 2, ?_, Nat.le_add_left _ _, by omega, ?_, ?_⟩
    · simp only [rightxBase]
      rw [hfind]
      simp only [Option.map_some']
      rw [hmid]
    · intro j hj1 hj2
      have hjlt : j - w / 2 < w - w / 2 := by omega
      have := hdom (j - w / 2) (by rw [hdlen]; exact hjlt)
      have hjval : ((histogram image).drop ((histogram image).length / 2)).getD (j - w / 2) 0 =
          (histogram image).getD j 0 := by
        rw [getD_drop, hmid]
        congr 1
        omega
      rwa [hival, hjval] at this
    · intro j hj1 hj2
      have := hstrict (j - w / 2) (by omega)
      have hjval : ((histogram image).drop ((histogram image).length / 2)).getD (j - w / 2) 0 =
          (histogram image).getD j 0 := by
        rw [getD_drop, hmid]
        congr 1
        omega
      rwa [hival, hjval] at this

/-- Witness for C7 at a concrete frame: 2×2 frame with one nonzero pixel in
each half. -/
theorem cold_start_histogram_argmax_witness :
    ([[0, 1], [1, 0]] : Frame).length = 2 ∧ (∀ r ∈ ([[0, 1], [1, 0]] : Frame), r.length = 2) ∧
      coldStartBasesSpec [[0, 1], [1, 0]] 2 2 :=
  ⟨rfl, by decide,
    cold_start_histogram_argmax [[0, 1], [1, 0]] 2 2 rfl (by decide) (by norm_num) (by norm_num)⟩

end LaneFinder
